import Mathlib

/-!
Verification of the meal_max record store (`meal_max/models/kitchen_model.py`)
and the randomness wrapper (`meal_max/utils/random_utils.py`).

The database table `meals` is embedded as a `List Row`, one `Row` per stored
row.  Every operation of `kitchen_model.py` becomes a pure function from the
database state to `Except KitchenError` of its result (and of the new state,
for mutating operations); a `.error` result models a raised `ValueError` and
leaves the caller's state untouched, exactly as an exception thrown before
`conn.commit()` does.  SQLite `REAL` values are idealised as `ℚ`, `INTEGER`
as `ℤ`.  `cursor.fetchone()` on `WHERE id = ?` / `WHERE meal = ?` is
`List.find?`; `UPDATE ... WHERE id = ?` maps the update over every row whose
`id` matches.
-/

/-- One row of the `meals` table. -/
structure Row where
  id : ℤ
  meal : String
  cuisine : String
  price : ℚ
  difficulty : String
  battles : ℤ
  wins : ℤ
  deleted : Bool
deriving DecidableEq, Repr

/-- Every distinct `raise ValueError(...)` site in `kitchen_model.py`,
one constructor per site family (same message format = same constructor),
carrying the values interpolated into the message. -/
inductive KitchenError where
  /-- `Meal.__post_init__`: "Price must be a positive value." -/
  | postInitPrice
  /-- `Meal.__post_init__`: "Difficulty must be 'LOW', 'MED', or 'HIGH'." -/
  | postInitDifficulty
  /-- `create_meal`: "Invalid price: {price}. Price must be a positive number.";
  `none` records that the argument was not numeric. -/
  | invalidPrice (price : Option ℚ)
  /-- `create_meal`: "Invalid difficulty level: {difficulty}. ..." -/
  | invalidDifficulty (difficulty : String)
  /-- `create_meal`: "Meal with name '{meal}' already exists" -/
  | duplicateMeal (meal : String)
  /-- "Meal with ID {meal_id} not found" -/
  | mealNotFound (id : ℤ)
  /-- "Meal with ID {meal_id} has been deleted" -/
  | mealDeleted (id : ℤ)
  /-- `get_meal_by_name`: "Meal with name {meal_name} not found" -/
  | mealNotFoundName (meal : String)
  /-- `get_meal_by_name`: "Meal with name {meal_name} has been deleted" -/
  | mealDeletedName (meal : String)
  /-- `update_meal_stats`: "Invalid result: {result}. Expected 'win' or 'loss'." -/
  | invalidResult (result : String)
  /-- `get_leaderboard`: "Invalid sort_by parameter: {sort_by}" -/
  | invalidSortBy (sortBy : String)
deriving DecidableEq, Repr

/-- The `Meal` dataclass of `kitchen_model.py` (fields `id, meal, cuisine,
price, difficulty`). -/
structure Meal where
  id : ℤ
  meal : String
  cuisine : String
  price : ℚ
  difficulty : String
deriving DecidableEq, Repr

/-- `Meal.__post_init__`: constructing a `Meal` raises when `price < 0`
(note: strictly negative in the source) or when `difficulty` is not one of
`LOW`, `MED`, `HIGH`. -/
def Meal.make (id : ℤ) (meal cuisine : String) (price : ℚ) (difficulty : String) :
    Except KitchenError Meal :=
  if price < 0 then .error .postInitPrice
  else if difficulty ∉ (["LOW", "MED", "HIGH"] : List String) then .error .postInitDifficulty
  else .ok ⟨id, meal, cuisine, price, difficulty⟩

/-- Modelled from the spec: the table schema (`id PK autoincrement`) is not
under src/, so the id handed out by storage for a fresh row is modelled as one
more than the largest id present. -/
def nextId (db : List Row) : ℤ := (db.map Row.id).foldr max 0 + 1

/-- `create_meal`.  `price : Option ℚ` embeds the dynamically typed argument:
`none` models a Python value that is not `int`/`float` (rejected by the
`isinstance` check), `some p` a numeric value.  The storage effects of the
`INSERT` are modelled from the spec where the schema is not under src/:
`meal TEXT UNIQUE` (a duplicate name makes the insert signal
`sqlite3.IntegrityError`, re-raised as the duplicate error), and the new row
gets the column defaults `battles=0, wins=0, deleted=false`. -/
def create_meal (db : List Row) (meal cuisine : String) (price : Option ℚ)
    (difficulty : String) : Except KitchenError (List Row) :=
  match price with
  | none => .error (.invalidPrice none)
  | some p =>
    if p ≤ 0 then .error (.invalidPrice (some p))
    else if difficulty ∉ (["LOW", "MED", "HIGH"] : List String) then
      .error (.invalidDifficulty difficulty)
    else if db.any (fun r => r.meal == meal) then .error (.duplicateMeal meal)
    else .ok (db ++ [⟨nextId db, meal, cuisine, p, difficulty, 0, 0, false⟩])

/-- `delete_meal`: fetch the `deleted` flag (`fetchone()` of
`SELECT deleted ... WHERE id = ?`; `None` triggers the `TypeError` branch,
i.e. not-found), reject an already deleted row, otherwise run
`UPDATE meals SET deleted = TRUE WHERE id = ?`. -/
def delete_meal (db : List Row) (meal_id : ℤ) : Except KitchenError (List Row) :=
  match db.find? (fun r => r.id == meal_id) with
  | none => .error (.mealNotFound meal_id)
  | some r =>
    if r.deleted then .error (.mealDeleted meal_id)
    else .ok (db.map fun s => if s.id = meal_id then { s with deleted := true } else s)

/-- `update_meal_stats`: the deleted/not-found check on the fetched flag comes
first, then the `result` string is dispatched; an unrecognised `result` raises
only after the row was found active. -/
def update_meal_stats (db : List Row) (meal_id : ℤ) (result : String) :
    Except KitchenError (List Row) :=
  match db.find? (fun r => r.id == meal_id) with
  | none => .error (.mealNotFound meal_id)
  | some r =>
    if r.deleted then .error (.mealDeleted meal_id)
    else if result = "win" then
      .ok (db.map fun s =>
        if s.id = meal_id then { s with battles := s.battles + 1, wins := s.wins + 1 } else s)
    else if result = "loss" then
      .ok (db.map fun s => if s.id = meal_id then { s with battles := s.battles + 1 } else s)
    else .error (.invalidResult result)

/-- `get_meal_by_id`: fetch the full row, reject missing or deleted, and
return `Meal(...)`, which re-runs `Meal.__post_init__` validation. -/
def get_meal_by_id (db : List Row) (meal_id : ℤ) : Except KitchenError Meal :=
  match db.find? (fun r => r.id == meal_id) with
  | some r =>
    if r.deleted then .error (.mealDeleted meal_id)
    else Meal.make r.id r.meal r.cuisine r.price r.difficulty
  | none => .error (.mealNotFound meal_id)

/-- `get_meal_by_name`: same contract as `get_meal_by_id`, keyed by `meal`. -/
def get_meal_by_name (db : List Row) (meal_name : String) : Except KitchenError Meal :=
  match db.find? (fun r => r.meal == meal_name) with
  | some r =>
    if r.deleted then .error (.mealDeletedName meal_name)
    else Meal.make r.id r.meal r.cuisine r.price r.difficulty
  | none => .error (.mealNotFoundName meal_name)

/-- Python `round` (banker's rounding, half to even) on an exact rational. -/
def roundHalfEven (x : ℚ) : ℤ :=
  if x - ⌊x⌋ = 1 / 2 then (if 2 ∣ ⌊x⌋ then ⌊x⌋ else ⌊x⌋ + 1) else round x

/-- Python `round(x, 1)`: round to one decimal place. -/
def round1 (x : ℚ) : ℚ := (roundHalfEven (x * 10) : ℚ) / 10

/-- The SQL expression `wins * 1.0 / battles AS win_pct`. -/
def winRatio (r : Row) : ℚ := (r.wins : ℚ) / (r.battles : ℚ)

/-- The `WHERE deleted = false AND battles > 0` filter of the leaderboard
query. -/
def leaderboardRowP (r : Row) : Bool := !r.deleted && decide (0 < r.battles)

/-- One returned leaderboard dict
`{id, meal, cuisine, price, difficulty, battles, wins, win_pct}`. -/
structure LeaderboardEntry where
  id : ℤ
  meal : String
  cuisine : String
  price : ℚ
  difficulty : String
  battles : ℤ
  wins : ℤ
  win_pct : ℚ
deriving DecidableEq, Repr

/-- The Python projection of a fetched row:
`'win_pct': round(row[7] * 100, 1)` with `row[7]` the SQL `win_pct` ratio. -/
def toLeaderboardEntry (r : Row) : LeaderboardEntry :=
  ⟨r.id, r.meal, r.cuisine, r.price, r.difficulty, r.battles, r.wins,
    round1 (winRatio r * 100)⟩

/-- `ORDER BY wins DESC` on rows. -/
def byWins (a b : Row) : Prop := b.wins ≤ a.wins

/-- `ORDER BY win_pct DESC` on rows (the raw SQL ratio, before the Python
rounding). -/
def byWinPct (a b : Row) : Prop := winRatio b ≤ winRatio a

instance : DecidableRel byWins := fun a b => inferInstanceAs (Decidable (b.wins ≤ a.wins))

instance : DecidableRel byWinPct := fun a b => inferInstanceAs (Decidable (winRatio b ≤ winRatio a))

instance : IsTotal Row byWins := ⟨fun a b => le_total b.wins a.wins⟩

instance : IsTrans Row byWins := ⟨fun _ _ _ hab hbc => le_trans hbc hab⟩

instance : IsTotal Row byWinPct := ⟨fun a b => le_total (winRatio b) (winRatio a)⟩

instance : IsTrans Row byWinPct := ⟨fun _ _ _ hab hbc => le_trans hbc hab⟩

/-- `get_leaderboard`: validate `sort_by` (the query string is only built, not
executed, before validation), select the non-deleted rows with `battles > 0`
in the storage order given by the chosen `ORDER BY ... DESC`, and project
each row.  SQL leaves the relative order of ties unspecified; the embedding
fixes it with a concrete sort. -/
def get_leaderboard (db : List Row) (sort_by : String := "wins") :
    Except KitchenError (List LeaderboardEntry) :=
  if sort_by = "win_pct" then
    .ok ((List.insertionSort byWinPct (db.filter leaderboardRowP)).map toLeaderboardEntry)
  else if sort_by = "wins" then
    .ok ((List.insertionSort byWins (db.filter leaderboardRowP)).map toLeaderboardEntry)
  else .error (.invalidSortBy sort_by)

/-! ## Randomness wrapper (`random_utils.py`) -/

/-- Outcome of `requests.get(url, timeout=5)` followed by
`response.raise_for_status()`, as seen by `get_random`'s handlers:
`timeout` is `requests.exceptions.Timeout`; `requestFailure` is any other
`requests.exceptions.RequestException` (including the `HTTPError` that
`raise_for_status` raises on an error status), with the exception's
rendered message; `ok` carries the body text of a successful response. -/
inductive HttpResult where
  | timeout
  | requestFailure (msg : String)
  | ok (text : String)
deriving DecidableEq, Repr

/-- The Python exception value `get_random` raises: its type and message. -/
inductive PyExc where
  | valueError (msg : String)
  | runtimeError (msg : String)
deriving DecidableEq, Repr

/-- The Python type of the exception. -/
def PyExc.typeName : PyExc → String
  | valueError _ => "ValueError"
  | runtimeError _ => "RuntimeError"

/-- Value of an all-digit character run. -/
def digitsVal (l : List Char) : ℕ := l.foldl (fun a c => 10 * a + (c.toNat - 48)) 0

/-- Mantissa part of a Python float literal: `digits`, `digits.digits`,
`digits.` or `.digits`. -/
def parseMantissa (l : List Char) : Option ℚ :=
  match l.splitOn '.' with
  | [a] => if !a.isEmpty && a.all Char.isDigit then some (digitsVal a) else none
  | [a, b] =>
    if (!a.isEmpty || !b.isEmpty) && a.all Char.isDigit && b.all Char.isDigit then
      some ((digitsVal a : ℚ) + (digitsVal b : ℚ) / (10 : ℚ) ^ b.length)
    else none
  | _ => none

/-- Exponent part of a Python float literal: optionally signed digits. -/
def parseExpPart (l : List Char) : Option ℤ :=
  match l with
  | '+' :: rest => if !rest.isEmpty && rest.all Char.isDigit then some (digitsVal rest) else none
  | '-' :: rest =>
    if !rest.isEmpty && rest.all Char.isDigit then some (-(digitsVal rest : ℤ)) else none
  | _ => if !l.isEmpty && l.all Char.isDigit then some (digitsVal l) else none

/-- Unsigned Python float literal: mantissa with optional `e`-exponent
(the input is already lower-cased). -/
def parseUnsigned (l : List Char) : Option ℚ :=
  match l.splitOn 'e' with
  | [m] => parseMantissa m
  | [m, e] => do
    let mv ← parseMantissa m
    let ev ← parseExpPart e
    some (mv * (10 : ℚ) ^ ev)
  | _ => none

/-- Embedding of Python `float(s)` on the finite decimal literal forms
(optional sign, decimal mantissa, optional exponent) — the shapes a
`decimal-fractions` payload can take.  The special forms `inf`/`nan` and
digit-group underscores are outside the model. -/
def pyFloatOfString (s : String) : Option ℚ :=
  match s.data.map Char.toLower with
  | '+' :: rest => parseUnsigned rest
  | '-' :: rest => (parseUnsigned rest).map Neg.neg
  | l => parseUnsigned l

/-- `get_random`, as a function of the network outcome.  The inner
`ValueError` for an unparsable payload is not a `RequestException`, so it
propagates past the outer handlers unchanged. -/
def get_random (resp : HttpResult) : Except PyExc ℚ :=
  match resp with
  | .timeout => .error (.runtimeError "Request to random.org timed out.")
  | .requestFailure msg => .error (.runtimeError ("Request to random.org failed: " ++ msg))
  | .ok text =>
    match pyFloatOfString text.trim with
    | some q => .ok q
    | none => .error (.valueError ("Invalid response from random.org: " ++ text.trim))

/-! ## Derived invariants -/

/-- The counter invariant of one row: counters non-negative,
wins never ahead of battles. -/
def statsInv (r : Row) : Prop := 0 ≤ r.wins ∧ r.wins ≤ r.battles

/-- The counter invariant over the whole table. -/
def dbStatsInv (db : List Row) : Prop := ∀ r ∈ db, statsInv r

instance : DecidablePred statsInv := fun _ => instDecidableAnd

instance (db : List Row) : Decidable (dbStatsInv db) :=
  List.decidableBAll statsInv db

deriving instance DecidableEq for Except

/-! ## Theorems -/

/-- The two concrete win percentages of the spec's worked example:
`(wins=4, battles=5)` reports `80.0` and `(wins=2, battles=3)` reports
`66.7` after the one-decimal rounding of `round(row[7] * 100, 1)`. -/
theorem round1_example_values :
    round1 ((4 : ℚ) / 5 * 100) = 80 ∧ round1 ((2 : ℚ) / 3 * 100) = 667 / 10 := by
  constructor
  · have h1 : ((4 : ℚ) / 5 * 100) * 10 = 800 := by norm_num
    unfold round1 roundHalfEven
    rw [h1, if_neg (by norm_num), round_eq]
    norm_num
  · have h1 : ((2 : ℚ) / 3 * 100) * 10 = 2000 / 3 := by norm_num
    unfold round1 roundHalfEven
    rw [h1, if_neg (by norm_num), round_eq]
    norm_num

/-- C5: `Meal.__post_init__` checks `self.price < 0`, so a `Meal` with
`price = 0` is accepted at construction even though the raised message reads
"Price must be a positive value.", the zero-price unit test expects a
`ValueError`, and `create_meal` (the only writer) rejects `price <= 0`.
The negative-price and difficulty halves of the check behave as specified. -/
theorem meal_make_zero_price_accepted :
    Meal.make 4 "Salad" "Vegetarian" 0 "LOW" = .ok ⟨4, "Salad", "Vegetarian", 0, "LOW"⟩ ∧
    create_meal [] "Salad" "Vegetarian" (some 0) "LOW" = .error (.invalidPrice (some 0)) ∧
    Meal.make 2 "Sushi" "Japanese" (-5) "HIGH" = .error .postInitPrice ∧
    Meal.make 3 "Burger" "American" 10 "EASY" = .error .postInitDifficulty := by
  refine ⟨?_, ?_, ?_, ?_⟩
  · unfold Meal.make
    rw [if_neg (by norm_num), if_neg (by decide)]
  · simp only [create_meal]
    rw [if_pos (by norm_num)]
  · unfold Meal.make
    rw [if_pos (by norm_num)]
  · unfold Meal.make
    rw [if_neg (by norm_num), if_pos (by decide)]

/-- C4 (counterexample): with an id that does not exist, an invalid outcome
string is *not* rejected first — `update_meal_stats` consults storage and
fails with the not-found error, because the `result` dispatch sits after the
fetched-flag check. -/
theorem update_meal_stats_notfound_beats_invalid :
    update_meal_stats ([] : List Row) 1 "draw" = .error (.mealNotFound 1) ∧
    update_meal_stats ([] : List Row) 1 "draw" ≠ .error (.invalidResult "draw") := by
  refine ⟨rfl, ?_⟩
  intro h
  rw [show update_meal_stats ([] : List Row) 1 "draw" = .error (.mealNotFound 1) from rfl] at h
  injection h with h2
  exact KitchenError.noConfusion h2

/-- C4 (amended): for an id whose row exists and is not deleted, any outcome
other than `win`/`loss` makes `update_meal_stats` fail with the
invalid-result error. -/
theorem update_meal_stats_invalid_result (db : List Row) (meal_id : ℤ) (r : Row)
    (result : String) (hf : db.find? (fun s => s.id == meal_id) = some r)
    (hnd : r.deleted = false) (hw : result ≠ "win") (hl : result ≠ "loss") :
    update_meal_stats db meal_id result = .error (.invalidResult result) := by
  unfold update_meal_stats
  rw [hf]
  simp [hnd, hw, hl]

/-- Witness for C4 (amended) at a concrete one-row database. -/
theorem update_meal_stats_invalid_result_witness :
    ([⟨5, "Pizza", "Italian", 10, "LOW", 0, 0, false⟩] : List Row).find?
        (fun s => s.id == 5) = some ⟨5, "Pizza", "Italian", 10, "LOW", 0, 0, false⟩ ∧
    (⟨5, "Pizza", "Italian", 10, "LOW", 0, 0, false⟩ : Row).deleted = false ∧
    ("invalid_result" : String) ≠ "win" ∧ ("invalid_result" : String) ≠ "loss" ∧
    update_meal_stats [⟨5, "Pizza", "Italian", 10, "LOW", 0, 0, false⟩] 5 "invalid_result" =
      .error (.invalidResult "invalid_result") :=
  ⟨rfl, rfl, by decide, by decide,
    update_meal_stats_invalid_result _ 5 _ "invalid_result" rfl rfl (by decide) (by decide)⟩

/-- C8: `create_meal` rejects a non-numeric price, a price `≤ 0`, and an
unknown difficulty with the corresponding invalid-argument error, and the
result is the same for every database state — the validation happens before
storage is consulted, so no row can be inserted. -/
theorem create_meal_invalid_input (db : List Row) (meal cuisine : String)
    (price : Option ℚ) (difficulty : String) :
    (price = none →
      create_meal db meal cuisine price difficulty = .error (.invalidPrice none) ∧
      create_meal db meal cuisine price difficulty =
        create_meal [] meal cuisine price difficulty) ∧
    (∀ p, price = some p → p ≤ 0 →
      create_meal db meal cuisine price difficulty = .error (.invalidPrice (some p)) ∧
      create_meal db meal cuisine price difficulty =
        create_meal [] meal cuisine price difficulty) ∧
    (∀ p, price = some p → 0 < p → difficulty ∉ (["LOW", "MED", "HIGH"] : List String) →
      create_meal db meal cuisine price difficulty = .error (.invalidDifficulty difficulty) ∧
      create_meal db meal cuisine price difficulty =
        create_meal [] meal cuisine price difficulty) := by
  refine ⟨?_, ?_, ?_⟩
  · rintro rfl
    exact ⟨rfl, rfl⟩
  · rintro p rfl hp
    have h : ∀ d : List Row,
        create_meal d meal cuisine (some p) difficulty = .error (.invalidPrice (some p)) := by
      intro d
      simp only [create_meal]
      rw [if_pos hp]
    exact ⟨h db, (h db).trans (h []).symm⟩
  · rintro p rfl hp hd
    have h : ∀ d : List Row,
        create_meal d meal cuisine (some p) difficulty = .error (.invalidDifficulty difficulty) := by
      intro d
      simp only [create_meal]
      rw [if_neg (not_le.mpr hp), if_pos hd]
    exact ⟨h db, (h db).trans (h []).symm⟩

/-- Witness for C8 at a concrete negative price. -/
theorem create_meal_invalid_input_witness :
    (some (-2 : ℚ) = some (-2 : ℚ)) ∧ ((-2 : ℚ) ≤ 0) ∧
    (create_meal [] "Meal Name" "Italian" (some (-2)) "MED" =
        .error (.invalidPrice (some (-2))) ∧
      create_meal [] "Meal Name" "Italian" (some (-2)) "MED" =
        create_meal [] "Meal Name" "Italian" (some (-2)) "MED") :=
  ⟨rfl, by norm_num,
    (create_meal_invalid_input [] "Meal Name" "Italian" (some (-2)) "MED").2.1 (-2) rfl
      (by norm_num)⟩

/-- C7: on a valid input whose name matches a stored row, `create_meal`
fails with the duplicate-name error (the modelled uniqueness signal of the
storage engine); an error result leaves the caller's database state
untouched in this embedding. -/
theorem create_meal_duplicate_name (db : List Row) (meal cuisine : String) (p : ℚ)
    (difficulty : String) (r : Row) (hp : 0 < p)
    (hd : difficulty ∈ (["LOW", "MED", "HIGH"] : List String))
    (hr : r ∈ db) (hname : r.meal = meal) :
    create_meal db meal cuisine (some p) difficulty = .error (.duplicateMeal meal) := by
  simp only [create_meal]
  rw [if_neg (not_le.mpr hp), if_neg (not_not_intro hd),
    if_pos (List.any_eq_true.mpr ⟨r, hr, by simp [hname]⟩)]

/-- Witness for C7: creating `"Meal Name"` twice at a concrete database. -/
theorem create_meal_duplicate_name_witness :
    ((0 : ℚ) < 11) ∧ ("MED" : String) ∈ (["LOW", "MED", "HIGH"] : List String) ∧
    (⟨1, "Meal Name", "Cuisine Type", 11, "MED", 0, 0, false⟩ : Row) ∈
      ([⟨1, "Meal Name", "Cuisine Type", 11, "MED", 0, 0, false⟩] : List Row) ∧
    create_meal [⟨1, "Meal Name", "Cuisine Type", 11, "MED", 0, 0, false⟩]
        "Meal Name" "Italian" (some 11) "MED" = .error (.duplicateMeal "Meal Name") :=
  ⟨by norm_num, by decide, List.mem_cons_self _ _,
    create_meal_duplicate_name _ "Meal Name" "Italian" 11 "MED"
      ⟨1, "Meal Name", "Cuisine Type", 11, "MED", 0, 0, false⟩ (by norm_num) (by decide)
      (List.mem_cons_self _ _) rfl⟩

/-- C2: on an existing, non-deleted id, `update_meal_stats` with `win`
bumps that row's `battles` and `wins` by exactly 1, and with `loss` bumps
only `battles`; in both cases every row at another id, and every other field
of the affected row, is untouched. -/
theorem update_meal_stats_increments (db : List Row) (meal_id : ℤ) (r : Row)
    (hf : db.find? (fun s => s.id == meal_id) = some r) (hnd : r.deleted = false) :
    (∃ db', update_meal_stats db meal_id "win" = .ok db' ∧ db'.length = db.length ∧
      ∀ (i : ℕ) (s : Row), db[i]? = some s →
        (s.id = meal_id →
          db'[i]? = some { s with battles := s.battles + 1, wins := s.wins + 1 }) ∧
        (s.id ≠ meal_id → db'[i]? = some s)) ∧
    (∃ db', update_meal_stats db meal_id "loss" = .ok db' ∧ db'.length = db.length ∧
      ∀ (i : ℕ) (s : Row), db[i]? = some s →
        (s.id = meal_id → db'[i]? = some { s with battles := s.battles + 1 }) ∧
        (s.id ≠ meal_id → db'[i]? = some s)) := by
  constructor
  · refine ⟨db.map (fun s =>
      if s.id = meal_id then { s with battles := s.battles + 1, wins := s.wins + 1 } else s),
      ?_, by simp, ?_⟩
    · unfold update_meal_stats
      rw [hf]
      simp [hnd]
    · intro i s hs
      refine ⟨fun hid => ?_, fun hid => ?_⟩ <;>
        · rw [List.getElem?_map, hs]
          simp [hid]
  · refine ⟨db.map (fun s =>
      if s.id = meal_id then { s with battles := s.battles + 1 } else s),
      ?_, by simp, ?_⟩
    · unfold update_meal_stats
      rw [hf]
      simp [hnd]
    · intro i s hs
      refine ⟨fun hid => ?_, fun hid => ?_⟩ <;>
        · rw [List.getElem?_map, hs]
          simp [hid]

/-- Witness for C2 at a concrete two-row database. -/
theorem update_meal_stats_increments_witness :
    ([⟨1, "Pizza", "Italian", 10, "LOW", 3, 2, false⟩,
      ⟨2, "Sushi", "Japanese", 12, "HIGH", 4, 1, false⟩] : List Row).find?
        (fun s => s.id == 1) = some ⟨1, "Pizza", "Italian", 10, "LOW", 3, 2, false⟩ ∧
    (⟨1, "Pizza", "Italian", 10, "LOW", 3, 2, false⟩ : Row).deleted = false ∧
    ((∃ db', update_meal_stats [⟨1, "Pizza", "Italian", 10, "LOW", 3, 2, false⟩,
        ⟨2, "Sushi", "Japanese", 12, "HIGH", 4, 1, false⟩] 1 "win" = .ok db' ∧
      db'.length = ([⟨1, "Pizza", "Italian", 10, "LOW", 3, 2, false⟩,
        ⟨2, "Sushi", "Japanese", 12, "HIGH", 4, 1, false⟩] : List Row).length ∧
      ∀ (i : ℕ) (s : Row), ([⟨1, "Pizza", "Italian", 10, "LOW", 3, 2, false⟩,
          ⟨2, "Sushi", "Japanese", 12, "HIGH", 4, 1, false⟩] : List Row)[i]? = some s →
        (s.id = 1 → db'[i]? = some { s with battles := s.battles + 1, wins := s.wins + 1 }) ∧
        (s.id ≠ 1 → db'[i]? = some s)) ∧
    (∃ db', update_meal_stats [⟨1, "Pizza", "Italian", 10, "LOW", 3, 2, false⟩,
        ⟨2, "Sushi", "Japanese", 12, "HIGH", 4, 1, false⟩] 1 "loss" = .ok db' ∧
      db'.length = ([⟨1, "Pizza", "Italian", 10, "LOW", 3, 2, false⟩,
        ⟨2, "Sushi", "Japanese", 12, "HIGH", 4, 1, false⟩] : List Row).length ∧
      ∀ (i : ℕ) (s : Row), ([⟨1, "Pizza", "Italian", 10, "LOW", 3, 2, false⟩,
          ⟨2, "Sushi", "Japanese", 12, "HIGH", 4, 1, false⟩] : List Row)[i]? = some s →
        (s.id = 1 → db'[i]? = some { s with battles := s.battles + 1 }) ∧
        (s.id ≠ 1 → db'[i]? = some s))) :=
  ⟨rfl, rfl, update_meal_stats_increments _ 1 _ rfl rfl⟩

/-- C6: `create_meal` appends a fresh row with `battles = 0` and `wins = 0`,
and every mutating operation preserves `0 ≤ wins ∧ wins ≤ battles` on every
row (the read-only operations return no new state, so there is nothing for
them to preserve). -/
theorem counters_invariant (db : List Row) (hinv : dbStatsInv db) :
    (∀ meal cuisine price difficulty db',
      create_meal db meal cuisine price difficulty = .ok db' →
        dbStatsInv db' ∧ ∃ row, db' = db ++ [row] ∧ row.battles = 0 ∧ row.wins = 0) ∧
    (∀ meal_id db', delete_meal db meal_id = .ok db' → dbStatsInv db') ∧
    (∀ meal_id result db', update_meal_stats db meal_id result = .ok db' → dbStatsInv db') := by
  refine ⟨?_, ?_, ?_⟩
  · intro meal cuisine price difficulty db' h
    cases price with
    | none => exact Except.noConfusion h
    | some p =>
      simp only [create_meal] at h
      split_ifs at h
      injection h with h4
      subst h4
      refine ⟨?_, _, rfl, rfl, rfl⟩
      intro r hr
      rcases List.mem_append.mp hr with hmem | hmem
      · exact hinv r hmem
      · rw [List.mem_singleton.mp hmem]
        exact ⟨le_refl _, le_refl _⟩
  · intro meal_id db' h
    unfold delete_meal at h
    cases hfind : db.find? (fun s => s.id == meal_id) with
    | none =>
      rw [hfind] at h
      exact Except.noConfusion h
    | some r =>
      rw [hfind] at h
      by_cases hdel : r.deleted
      · simp [hdel] at h
      · simp [hdel] at h
        subst h
        intro r' hr'
        rcases List.mem_map.mp hr' with ⟨s, hs, rfl⟩
        have hsv := hinv s hs
        simp only [statsInv] at hsv ⊢
        by_cases hid : s.id = meal_id <;> simp [hid] <;> omega
  · intro meal_id result db' h
    unfold update_meal_stats at h
    cases hfind : db.find? (fun s => s.id == meal_id) with
    | none =>
      rw [hfind] at h
      exact Except.noConfusion h
    | some r =>
      rw [hfind] at h
      by_cases hdel : r.deleted
      · simp [hdel] at h
      · by_cases hw : result = "win"
        · simp [hdel, hw] at h
          subst h
          intro r' hr'
          rcases List.mem_map.mp hr' with ⟨s, hs, rfl⟩
          have hsv := hinv s hs
          simp only [statsInv] at hsv ⊢
          by_cases hid : s.id = meal_id <;> simp [hid] <;> omega
        · by_cases hl : result = "loss"
          · simp [hdel, hw, hl] at h
            subst h
            intro r' hr'
            rcases List.mem_map.mp hr' with ⟨s, hs, rfl⟩
            have hsv := hinv s hs
            simp only [statsInv] at hsv ⊢
            by_cases hid : s.id = meal_id <;> simp [hid] <;> omega
          · simp [hdel, hw, hl] at h

/-- Witness for C6 at a concrete database satisfying the invariant. -/
theorem counters_invariant_witness :
    dbStatsInv [⟨1, "Pizza", "Italian", 10, "LOW", 3, 2, false⟩] ∧
    ((∀ meal cuisine price difficulty db',
      create_meal [⟨1, "Pizza", "Italian", 10, "LOW", 3, 2, false⟩]
          meal cuisine price difficulty = .ok db' →
        dbStatsInv db' ∧ ∃ row, db' = [⟨1, "Pizza", "Italian", 10, "LOW", 3, 2, false⟩] ++ [row] ∧
          row.battles = 0 ∧ row.wins = 0) ∧
    (∀ meal_id db', delete_meal [⟨1, "Pizza", "Italian", 10, "LOW", 3, 2, false⟩] meal_id =
        .ok db' → dbStatsInv db') ∧
    (∀ meal_id result db',
      update_meal_stats [⟨1, "Pizza", "Italian", 10, "LOW", 3, 2, false⟩] meal_id result =
        .ok db' → dbStatsInv db')) :=
  ⟨by decide, counters_invariant _ (by decide)⟩

/-- C9 (counterexample): the timeout failure and an other-network failure
are raised as the *same* Python exception type, `RuntimeError` — they are
distinguished only by message, so the three failure modes are not three
distinct typed errors. -/
theorem get_random_same_exception_type :
    get_random .timeout = .error (.runtimeError "Request to random.org timed out.") ∧
    get_random (.requestFailure "Network error") =
      .error (.runtimeError ("Request to random.org failed: " ++ "Network error")) ∧
    PyExc.typeName (.runtimeError "Request to random.org timed out.") =
      PyExc.typeName (.runtimeError ("Request to random.org failed: " ++ "Network error")) :=
  ⟨rfl, rfl, rfl⟩

/-- C9 (amended): `get_random` raises `RuntimeError` with the timed-out
message exactly on a timeout, `RuntimeError` with the request-failed message
(always a different message than the timeout one) on any other network-level
failure, and a `ValueError` — a distinct exception type — exactly when the
trimmed payload does not parse as a decimal number; otherwise it returns the
parsed value. -/
theorem get_random_error_modes (resp : HttpResult) :
    (resp = .timeout →
      get_random resp = .error (.runtimeError "Request to random.org timed out.")) ∧
    (∀ m, resp = .requestFailure m →
      get_random resp = .error (.runtimeError ("Request to random.org failed: " ++ m))) ∧
    (∀ t, resp = .ok t → pyFloatOfString t.trim = none →
      get_random resp = .error (.valueError ("Invalid response from random.org: " ++ t.trim))) ∧
    (∀ t q, resp = .ok t → pyFloatOfString t.trim = some q → get_random resp = .ok q) ∧
    (∀ m, ("Request to random.org timed out." : String) ≠
      "Request to random.org failed: " ++ m) := by
  refine ⟨?_, ?_, ?_, ?_, ?_⟩
  · rintro rfl
    rfl
  · rintro m rfl
    rfl
  · rintro t rfl hp
    simp only [get_random]
    rw [hp]
  · rintro t q rfl hp
    simp only [get_random]
    rw [hp]
  · intro m hm
    have hd := congrArg String.data hm
    rw [String.data_append] at hd
    have h29 := congrArg (List.take 29) hd
    rw [List.take_append_of_le_length (by decide)] at h29
    exact absurd h29 (by decide)

/-- Witness for C9 (amended): the timeout mode at a concrete outcome. -/
theorem get_random_error_modes_witness :
    (HttpResult.timeout = HttpResult.timeout) ∧
    get_random .timeout = .error (.runtimeError "Request to random.org timed out.") :=
  ⟨rfl, (get_random_error_modes .timeout).1 rfl⟩

/-- C10: the id/name lookups rebuild the `Meal` dataclass, re-running its
validation: a stored row with a negative price or an unknown difficulty makes
the lookup raise instead of returning it, and every `Meal` a lookup returns
has `0 ≤ price` and a difficulty among `LOW`, `MED`, `HIGH`. -/
theorem lookup_revalidates (db : List Row) :
    (∀ (meal_id : ℤ) (r : Row), db.find? (fun s => s.id == meal_id) = some r →
      (r.price < 0 ∨ r.difficulty ∉ (["LOW", "MED", "HIGH"] : List String)) →
      ∃ e, get_meal_by_id db meal_id = .error e) ∧
    (∀ (name : String) (r : Row), db.find? (fun s => s.meal == name) = some r →
      (r.price < 0 ∨ r.difficulty ∉ (["LOW", "MED", "HIGH"] : List String)) →
      ∃ e, get_meal_by_name db name = .error e) ∧
    (∀ (meal_id : ℤ) (m : Meal), get_meal_by_id db meal_id = .ok m →
      0 ≤ m.price ∧ m.difficulty ∈ (["LOW", "MED", "HIGH"] : List String)) ∧
    (∀ (name : String) (m : Meal), get_meal_by_name db name = .ok m →
      0 ≤ m.price ∧ m.difficulty ∈ (["LOW", "MED", "HIGH"] : List String)) := by
  refine ⟨?_, ?_, ?_, ?_⟩
  · intro meal_id r hf hbad
    by_cases hdel : r.deleted
    · exact ⟨.mealDeleted meal_id, by unfold get_meal_by_id; rw [hf]; simp [hdel]⟩
    · rcases hbad with hb | hb
      · exact ⟨.postInitPrice, by unfold get_meal_by_id; rw [hf]; simp [hdel, Meal.make, hb]⟩
      · by_cases hp : r.price < 0
        · exact ⟨.postInitPrice, by unfold get_meal_by_id; rw [hf]; simp [hdel, Meal.make, hp]⟩
        · exact ⟨.postInitDifficulty, by
            unfold get_meal_by_id; rw [hf]; simp [hdel, Meal.make, hp, hb]⟩
  · intro name r hf hbad
    by_cases hdel : r.deleted
    · exact ⟨.mealDeletedName name, by unfold get_meal_by_name; rw [hf]; simp [hdel]⟩
    · rcases hbad with hb | hb
      · exact ⟨.postInitPrice, by unfold get_meal_by_name; rw [hf]; simp [hdel, Meal.make, hb]⟩
      · by_cases hp : r.price < 0
        · exact ⟨.postInitPrice, by unfold get_meal_by_name; rw [hf]; simp [hdel, Meal.make, hp]⟩
        · exact ⟨.postInitDifficulty, by
            unfold get_meal_by_name; rw [hf]; simp [hdel, Meal.make, hp, hb]⟩
  · intro meal_id m h
    unfold get_meal_by_id at h
    cases hfind : db.find? (fun s => s.id == meal_id) with
    | none =>
      rw [hfind] at h
      exact Except.noConfusion h
    | some r =>
      rw [hfind] at h
      by_cases hdel : r.deleted
      · simp [hdel] at h
      · simp only [hdel, Bool.false_eq_true, if_false] at h
        unfold Meal.make at h
        split_ifs at h with h1 h2
        injection h with h4
        rw [← h4]
        exact ⟨not_lt.mp h1, h2⟩
  · intro name m h
    unfold get_meal_by_name at h
    cases hfind : db.find? (fun s => s.meal == name) with
    | none =>
      rw [hfind] at h
      exact Except.noConfusion h
    | some r =>
      rw [hfind] at h
      by_cases hdel : r.deleted
      · simp [hdel] at h
      · simp only [hdel, Bool.false_eq_true, if_false] at h
        unfold Meal.make at h
        split_ifs at h with h1 h2
        injection h with h4
        rw [← h4]
        exact ⟨not_lt.mp h1, h2⟩

/-- Witness for C10: a stored row with a negative price makes the id lookup
fail. -/
theorem lookup_revalidates_witness :
    (([⟨7, "Bad", "X", -5, "LOW", 1, 0, false⟩] : List Row).find? (fun s => s.id == 7) =
      some ⟨7, "Bad", "X", -5, "LOW", 1, 0, false⟩) ∧
    ((⟨7, "Bad", "X", -5, "LOW", 1, 0, false⟩ : Row).price < 0 ∨
      (⟨7, "Bad", "X", -5, "LOW", 1, 0, false⟩ : Row).difficulty ∉
        (["LOW", "MED", "HIGH"] : List String)) ∧
    ∃ e, get_meal_by_id [⟨7, "Bad", "X", -5, "LOW", 1, 0, false⟩] 7 = .error e :=
  ⟨rfl, Or.inl (by norm_num),
    (lookup_revalidates _).1 7 ⟨7, "Bad", "X", -5, "LOW", 1, 0, false⟩ rfl
      (Or.inl (by norm_num))⟩

/-- C3: deleting an existing active row succeeds and flips its `deleted`
flag, and from then on every logical operation on that id — a second
delete, the id lookup, the name lookup of that row, and every stat update —
fails with the already-deleted error and produces no new state: nothing
transitions a row out of `deleted`.  (Name uniqueness, enforced by the
storage schema, is the `hnames` hypothesis.) -/
theorem deleted_is_terminal (db : List Row) (meal_id : ℤ) (r : Row)
    (hnames : (db.map Row.meal).Nodup)
    (hf : db.find? (fun s => s.id == meal_id) = some r) (hnd : r.deleted = false) :
    ∃ db', delete_meal db meal_id = .ok db' ∧
      db'.find? (fun s => s.id == meal_id) = some { r with deleted := true } ∧
      delete_meal db' meal_id = .error (.mealDeleted meal_id) ∧
      get_meal_by_id db' meal_id = .error (.mealDeleted meal_id) ∧
      get_meal_by_name db' r.meal = .error (.mealDeletedName r.meal) ∧
      (∀ result : String,
        update_meal_stats db' meal_id result = .error (.mealDeleted meal_id)) := by
  have hid : r.id = meal_id := by simpa using List.find?_some hf
  have hmem : r ∈ db := List.mem_of_find?_eq_some hf
  have hfind1 : (db.map (fun s => if s.id = meal_id then { s with deleted := true } else s)).find?
      (fun s => s.id == meal_id) = some { r with deleted := true } := by
    rw [List.find?_map]
    have hco : ((fun s : Row => s.id == meal_id) ∘
        (fun s => if s.id = meal_id then { s with deleted := true } else s)) =
        fun s : Row => s.id == meal_id := by
      funext s
      by_cases h : s.id = meal_id <;> simp [Function.comp, h]
    rw [hco, hf]
    simp [hid]
  have hq : db.find? (fun s => s.meal == r.meal) = some r := by
    cases hq0 : db.find? (fun s => s.meal == r.meal) with
    | none => exact absurd (List.find?_eq_none.mp hq0 r hmem) (by simp)
    | some r2 =>
      have hr2mem := List.mem_of_find?_eq_some hq0
      have hr2meal : r2.meal = r.meal := by simpa using List.find?_some hq0
      rw [List.inj_on_of_nodup_map hnames hr2mem hmem hr2meal]
  have hfindname :
      (db.map (fun s => if s.id = meal_id then { s with deleted := true } else s)).find?
        (fun s => s.meal == r.meal) = some { r with deleted := true } := by
    rw [List.find?_map]
    have hco : ((fun s : Row => s.meal == r.meal) ∘
        (fun s => if s.id = meal_id then { s with deleted := true } else s)) =
        fun s : Row => s.meal == r.meal := by
      funext s
      by_cases h : s.id = meal_id <;> simp [Function.comp, h]
    rw [hco, hq]
    simp [hid]
  refine ⟨db.map (fun s => if s.id = meal_id then { s with deleted := true } else s),
    ?_, hfind1, ?_, ?_, ?_, ?_⟩
  · unfold delete_meal
    rw [hf]
    simp [hnd]
  · unfold delete_meal
    rw [hfind1]
    simp
  · unfold get_meal_by_id
    rw [hfind1]
    simp
  · unfold get_meal_by_name
    rw [hfindname]
    simp
  · intro result
    unfold update_meal_stats
    rw [hfind1]
    simp

/-- Witness for C3 at a concrete two-row database with distinct names. -/
theorem deleted_is_terminal_witness :
    (([⟨1, "Pizza", "Italian", 10, "LOW", 3, 2, false⟩,
       ⟨2, "Sushi", "Japanese", 12, "HIGH", 4, 1, false⟩] : List Row).map Row.meal).Nodup ∧
    ([⟨1, "Pizza", "Italian", 10, "LOW", 3, 2, false⟩,
      ⟨2, "Sushi", "Japanese", 12, "HIGH", 4, 1, false⟩] : List Row).find?
        (fun s => s.id == 1) = some ⟨1, "Pizza", "Italian", 10, "LOW", 3, 2, false⟩ ∧
    (⟨1, "Pizza", "Italian", 10, "LOW", 3, 2, false⟩ : Row).deleted = false ∧
    ∃ db', delete_meal [⟨1, "Pizza", "Italian", 10, "LOW", 3, 2, false⟩,
        ⟨2, "Sushi", "Japanese", 12, "HIGH", 4, 1, false⟩] 1 = .ok db' ∧
      db'.find? (fun s => s.id == 1) =
        some { (⟨1, "Pizza", "Italian", 10, "LOW", 3, 2, false⟩ : Row) with deleted := true } ∧
      delete_meal db' 1 = .error (.mealDeleted 1) ∧
      get_meal_by_id db' 1 = .error (.mealDeleted 1) ∧
      get_meal_by_name db' (⟨1, "Pizza", "Italian", 10, "LOW", 3, 2, false⟩ : Row).meal =
        .error (.mealDeletedName (⟨1, "Pizza", "Italian", 10, "LOW", 3, 2, false⟩ : Row).meal) ∧
      (∀ result : String, update_meal_stats db' 1 result = .error (.mealDeleted 1)) :=
  ⟨by decide, rfl, rfl, deleted_is_terminal _ 1 _ (by decide) rfl rfl⟩

/-- C1: for either valid sort key, `get_leaderboard` succeeds and returns
exactly the projections of the non-deleted rows with at least one battle —
a permutation of the filtered, projected table — each entry reporting
`win_pct` as the ratio times 100 rounded to one decimal, the whole list
sorted descending by integer `wins` resp. by the computed ratio. -/
theorem get_leaderboard_spec (db : List Row) (k : String)
    (hk : k = "wins" ∨ k = "win_pct") :
    ∃ l, get_leaderboard db k = .ok l ∧
      l.Perm ((db.filter leaderboardRowP).map toLeaderboardEntry) ∧
      (∀ e ∈ l, e.win_pct = round1 ((e.wins : ℚ) / (e.battles : ℚ) * 100)) ∧
      (k = "wins" → l.Sorted (fun a b => b.wins ≤ a.wins)) ∧
      (k = "win_pct" → l.Sorted (fun a b =>
        (b.wins : ℚ) / (b.battles : ℚ) ≤ (a.wins : ℚ) / (a.battles : ℚ))) := by
  rcases hk with rfl | rfl
  · refine ⟨(List.insertionSort byWins (db.filter leaderboardRowP)).map toLeaderboardEntry,
      ?_, ?_, ?_, ?_, ?_⟩
    · unfold get_leaderboard
      rw [if_neg (by decide), if_pos rfl]
    · exact List.Perm.map toLeaderboardEntry (List.perm_insertionSort byWins _)
    · intro e he
      rcases List.mem_map.mp he with ⟨r, _, rfl⟩
      simp [toLeaderboardEntry, winRatio]
    · intro _
      exact List.Pairwise.map toLeaderboardEntry (fun a b hab => hab)
        (List.sorted_insertionSort byWins (db.filter leaderboardRowP))
    · intro hcontra
      exact absurd hcontra (by decide)
  · refine ⟨(List.insertionSort byWinPct (db.filter leaderboardRowP)).map toLeaderboardEntry,
      ?_, ?_, ?_, ?_, ?_⟩
    · unfold get_leaderboard
      rw [if_pos rfl]
    · exact List.Perm.map toLeaderboardEntry (List.perm_insertionSort byWinPct _)
    · intro e he
      rcases List.mem_map.mp he with ⟨r, _, rfl⟩
      simp [toLeaderboardEntry, winRatio]
    · intro hcontra
      exact absurd hcontra (by decide)
    · intro _
      exact List.Pairwise.map toLeaderboardEntry (fun a b hab => hab)
        (List.sorted_insertionSort byWinPct (db.filter leaderboardRowP))

/-- Witness for C1: the spec's worked example rows, sorted by `wins`. -/
theorem get_leaderboard_spec_witness :
    (("wins" : String) = "wins" ∨ ("wins" : String) = "win_pct") ∧
    ∃ l, get_leaderboard [⟨1, "Meal 1", "Cuisine 1", 10, "LOW", 5, 4, false⟩,
        ⟨2, "Meal 2", "Cuisine 2", 15, "MED", 3, 2, false⟩] "wins" = .ok l ∧
      l.Perm ((([⟨1, "Meal 1", "Cuisine 1", 10, "LOW", 5, 4, false⟩,
        ⟨2, "Meal 2", "Cuisine 2", 15, "MED", 3, 2, false⟩] : List Row).filter
          leaderboardRowP).map toLeaderboardEntry) ∧
      (∀ e ∈ l, e.win_pct = round1 ((e.wins : ℚ) / (e.battles : ℚ) * 100)) ∧
      (("wins" : String) = "wins" → l.Sorted (fun a b => b.wins ≤ a.wins)) ∧
      (("wins" : String) = "win_pct" → l.Sorted (fun a b =>
        (b.wins : ℚ) / (b.battles : ℚ) ≤ (a.wins : ℚ) / (a.battles : ℚ))) :=
  ⟨Or.inl rfl, get_leaderboard_spec _ "wins" (Or.inl rfl)⟩
